import Mathlib

/-!
Verification of the rate-limited migration coordinator of the
google-chat-to-slack repository.

The embedding follows the TypeScript sources:
* `src/utils/rate-limiter.ts` — class `RateLimiter` (sliding-window limiter with
  exponential-backoff retry): `execute`, `isRateLimitError`, `calculateBackoffDelay`.
* `src/utils/rate-limiting/` — functional token bucket (`createTokenBucket`,
  `calculateTokensToAdd`, its own `isRateLimitError`, capped `calculateBackoffDelay`)
  and the manager (`executeWithRateLimit`).
* `src/services/slack.ts` — `uploadAndPostMessageWithAttachments`,
  `addReactionsToMessage`, `postTextMessage`, `processChannel` (thread map).
* `src/services/google-chat.ts` — `exportGoogleChatData` (Promise.all over spaces),
  `importSlackData` (sequential channel loop).
-/

namespace ChatMig

/-! ## Duck-typed JavaScript error values

Both classifiers inspect an unknown error value by probing for fields, in a
fixed order.  `JsError` records exactly the observations those probes make:
whether a `response` field is present (and, if so, the value of
`response?.status`), whether a `status` field is present, whether a `code`
field is present (and its string value), whether the value is an `Error`
instance, and its `message` string. -/

structure JsError where
  hasResponse : Bool
  responseStatus : Option Nat
  hasStatus : Bool
  statusVal : Option Nat
  hasCode : Bool
  codeVal : String
  isErrorInstance : Bool
  message : String
deriving DecidableEq

/-- `listHasPrefixChars needle hay` : does `hay` start with `needle`? -/
def listHasPrefixChars : List Char → List Char → Bool
  | [], _ => true
  | _ :: _, [] => false
  | a :: as, b :: bs => a == b && listHasPrefixChars as bs

/-- `listHasSubChars needle hay` : does `needle` occur contiguously in `hay`? -/
def listHasSubChars : List Char → List Char → Bool
  | n, [] => n.isEmpty
  | n, h :: t => listHasPrefixChars n (h :: t) || listHasSubChars n t

/-- JavaScript `hay.includes(needle)` on strings. -/
def strIncludes (hay needle : String) : Bool :=
  listHasSubChars needle.toList hay.toList

def quotaExceededStr : String := "Quota exceeded"
def quotaMetricStr : String := "quota metric"
def criticalReadStr : String := "Critical read requests"
def rateLimitedStr : String := "rate_limited"
def rateLimitExceededStr : String := "Rate limit exceeded"
def slackWebapiRateLimitedStr : String := "slack_webapi_rate_limited"

/-- `RateLimiter.isRateLimitError` from `src/utils/rate-limiter.ts` (lines 70-93):
checks, in order, a `response` field (`response?.status === 429`), a `status`
field (`status === 429`), then an `Error` instance whose non-empty message
contains one of three Google quota substrings; anything else is `false`.
This classifier has no branch for vendor error-code strings. -/
def isRateLimitError (e : JsError) : Bool :=
  if e.hasResponse then e.responseStatus == some 429
  else if e.hasStatus then e.statusVal == some 429
  else if e.isErrorInstance && !(e.message == "") then
    strIncludes e.message quotaExceededStr ||
      strIncludes e.message quotaMetricStr ||
      strIncludes e.message criticalReadStr
  else false

/-- The token-bucket module's `isRateLimitError` from
`src/utils/rate-limiting/token-bucket.ts`: same first two probes, then a
`code` field compared against the Slack code string, then an `Error`
instance whose message contains one of five substrings. -/
def tokenBucketIsRateLimitError (e : JsError) : Bool :=
  if e.hasResponse then e.responseStatus == some 429
  else if e.hasStatus then e.statusVal == some 429
  else if e.hasCode then e.codeVal == slackWebapiRateLimitedStr
  else if e.isErrorInstance && !(e.message == "") then
    strIncludes e.message quotaExceededStr ||
      strIncludes e.message quotaMetricStr ||
      strIncludes e.message criticalReadStr ||
      strIncludes e.message rateLimitedStr ||
      strIncludes e.message rateLimitExceededStr
  else false

/-! ## The `RateLimiter` class executor (`src/utils/rate-limiter.ts`) -/

/-- Constructor options of class `RateLimiter` (with the `??` defaults already
applied).  The class has no maximum-delay field. -/
structure RateLimiterOptions where
  maxRequestsPerMinute : Nat
  retryDelayMs : Nat
  maxRetries : Nat
  exponentialBackoffBase : Nat
deriving DecidableEq

/-- `RateLimiter.calculateBackoffDelay` (lines 98-100):
`retryDelayMs * exponentialBackoffBase ** retryCount`, with no cap. -/
def calculateBackoffDelay (o : RateLimiterOptions) (retryCount : Nat) : Nat :=
  o.retryDelayMs * o.exponentialBackoffBase ^ retryCount

/-- Observable outcome of one `execute` run: the returned value or thrown
error, the number of invocations of the work function, and the list of
backoff sleeps (in ms) performed between retries.  `Except.error none`
stands for the final `throw new Error('Max retries ... exceeded ...')`
after the loop; `Except.error (some e)` is a rethrow of the work
function's own error `e`. -/
structure ExecOutcome (E A : Type) where
  result : Except (Option E) A
  calls : Nat
  sleeps : List Nat

/-- The `while (retryCount <= this.maxRetries)` loop of `RateLimiter.execute`
(lines 34-65).  `fn k` is the outcome of the work function's `(k+1)`-th
invocation; `isRL` is the error classifier consulted in the catch block.
`retryCount` increments by exactly one per retried iteration, so the loop is
encoded with the fuel `remaining = maxRetries + 1 - retryCount`; fuel `0`
is the loop condition turning false, which falls through to the final throw
(`Except.error none`).  `waitIfNeeded`/`recordRequest` only manage the
sliding-window sleep and never invoke `fn` nor change the control flow, so
they do not appear in the outcome. -/
def executeLoop {E A : Type} (o : RateLimiterOptions) (isRL : E → Bool)
    (fn : Nat → Except E A) : Nat → Nat → ExecOutcome E A
  | _, 0 => ⟨Except.error none, 0, []⟩
  | k, remaining + 1 =>
    match fn k with
    | Except.ok a => ⟨Except.ok a, 1, []⟩
    | Except.error e =>
      if isRL e ∧ k < o.maxRetries then
        let r := executeLoop o isRL fn (k + 1) remaining
        ⟨r.result, r.calls + 1, calculateBackoffDelay o k :: r.sleeps⟩
      else ⟨Except.error (some e), 1, []⟩

/-- `RateLimiter.execute`: run the retry loop from `retryCount = 0`. -/
def execute {E A : Type} (o : RateLimiterOptions) (isRL : E → Bool)
    (fn : Nat → Except E A) : ExecOutcome E A :=
  executeLoop o isRL fn 0 (o.maxRetries + 1)

/-- `googlePeopleApiRateLimiter` construction (rate-limiter.ts lines 178-183). -/
def googlePeopleApiOptions : RateLimiterOptions :=
  ⟨80, 2000, 3, 3⟩

/-- `googleChatProjectRateLimiter` construction (rate-limiter.ts lines 163-168). -/
def googleChatProjectOptions : RateLimiterOptions :=
  ⟨2900, 1000, 5, 2⟩

/-! ## Concrete error values used as inputs -/

def emptyStr : String := ""

/-- A Google API (gaxios) HTTP 429 error: has a `response` field with status 429. -/
def http429 : JsError :=
  ⟨true, some 429, false, none, false, emptyStr, false, emptyStr⟩

/-- A standard HTTP error object with `status: 429`. -/
def status429 : JsError :=
  ⟨false, none, true, some 429, false, emptyStr, false, emptyStr⟩

/-- An HTTP 403 error object (`status: 403`). -/
def http403 : JsError :=
  ⟨false, none, true, some 403, false, emptyStr, false, emptyStr⟩

/-- An HTTP 500 error object (`status: 500`). -/
def http500 : JsError :=
  ⟨false, none, true, some 500, false, emptyStr, false, emptyStr⟩

/-- An error carrying only a vendor `code: 'rate_limited'` string. -/
def rateLimitedCodeError : JsError :=
  ⟨false, none, false, none, true, rateLimitedStr, false, emptyStr⟩

/-- An error carrying the Slack SDK code `'slack_webapi_rate_limited'`. -/
def slackCodeError : JsError :=
  ⟨false, none, false, none, true, slackWebapiRateLimitedStr, false, emptyStr⟩

/-- An `Error` instance with message `msg` (and no `response`/`status`/`code`
fields), as produced for Google quota-exceeded failures. -/
def googleQuotaError (msg : String) : JsError :=
  ⟨false, none, false, none, false, emptyStr, true, msg⟩

def sampleQuotaMsg : String := "Quota exceeded for quota metric Read requests"

/-- A work function that fails with `http429` on every invocation. -/
def always429 : Nat → Except JsError Unit := fun _ => Except.error http429

/-- A work function that fails with `http500` on every invocation. -/
def always500 : Nat → Except JsError Unit := fun _ => Except.error http500

/-- A work function that fails with `http403` on every invocation. -/
def always403 : Nat → Except JsError Unit := fun _ => Except.error http403

/-- A work function over a trivial error type that always fails. -/
def alwaysRlFailUnit : Nat → Except Unit Unit := fun _ => Except.error ()

/-- A classifier that treats every error as a rate-limit error. -/
def constTrue : Unit → Bool := fun _ => true

/-! ## Token bucket (`src/utils/rate-limiting/token-bucket.ts`)

Times are wall-clock instants in milliseconds (`Date.now()`), modelled as `Nat`.
Token counts are modelled as `Int` (they start at the configured capacity and
change by integer amounts: `Math.floor(timeDelta * refillRate)` and `-= 1`),
and the refill rate as `ℚ` (the configs use rates like `0.8` or `1/60`). -/

/-- `RateLimitConfig` from `src/utils/rate-limiting/types.ts` (lines 6-12). -/
structure RateLimitConfig where
  capacity : Int
  refillRate : ℚ
  maxRetries : Nat
  baseDelayMs : Nat
  maxDelayMs : Nat

/-- `TokenBucketState` from token-bucket.ts: current tokens and the instant of
the last refill. -/
structure TokenBucketState where
  tokens : Int
  lastRefillTime : Nat

/-- `calculateTokensToAdd` (token-bucket.ts):
`timeDelta = (now - lastRefillTime) / 1000` seconds,
`tokensToAdd = Math.floor(timeDelta * refillRate)`,
`newTokens = Math.min(capacity, currentTokens + tokensToAdd)`,
and the refill instant becomes `now`. -/
def calculateTokensToAdd (lastRefillTime : Nat) (refillRate : ℚ) (capacity : Int)
    (currentTokens : Int) (now : Nat) : Int × Nat :=
  let timeDelta : ℚ := ((now : ℚ) - (lastRefillTime : ℚ)) / 1000
  let tokensToAdd : Int := ⌊timeDelta * refillRate⌋
  (min capacity (currentTokens + tokensToAdd), now)

/-- `refillTokens` inside `createTokenBucket`: apply `calculateTokensToAdd` to
the current state at instant `now`. -/
def refillTokens (cfg : RateLimitConfig) (now : Nat) (s : TokenBucketState) :
    TokenBucketState :=
  let r := calculateTokensToAdd s.lastRefillTime cfg.refillRate cfg.capacity s.tokens now
  ⟨r.1, r.2⟩

/-- The bucket constructed by `createTokenBucket` at instant `now`: it starts
full (`tokens: config.capacity`) with `lastRefillTime: Date.now()`. -/
def createTokenBucket (cfg : RateLimitConfig) (now : Nat) : TokenBucketState :=
  ⟨cfg.capacity, now⟩

/-- One observable operation on a bucket, tagged with the `Date.now()` instant
at which it runs:
* `tryAcquire` is one iteration of the `acquireToken` loop — refill, then
  decrement by one if at least one token is available;
* `observe` is `getAvailableTokens()` — refill without decrementing. -/
inductive BucketOp where
  | tryAcquire (now : Nat)
  | observe (now : Nat)

/-- The instant at which an operation runs. -/
def BucketOp.time : BucketOp → Nat
  | .tryAcquire now => now
  | .observe now => now

/-- State transition of one bucket operation. -/
def bucketStep (cfg : RateLimitConfig) (s : TokenBucketState) : BucketOp → TokenBucketState
  | .tryAcquire now =>
    let s' := refillTokens cfg now s
    if 1 ≤ s'.tokens then ⟨s'.tokens - 1, s'.lastRefillTime⟩ else s'
  | .observe now => refillTokens cfg now s

/-- Run a sequence of bucket operations from a state. -/
def bucketRun (cfg : RateLimitConfig) (ops : List BucketOp) (s : TokenBucketState) :
    TokenBucketState :=
  ops.foldl (bucketStep cfg) s

/-- `getAvailableTokens()` observed at instant `now`: refill, then read. -/
def getAvailableTokens (cfg : RateLimitConfig) (now : Nat) (s : TokenBucketState) : Int :=
  (refillTokens cfg now s).tokens

/-! ## Rate-limiter manager (`src/utils/rate-limiting/rate-limiter-manager.ts`)
and outbound-call traces (`src/services/slack.ts`)

`executeWithRateLimit(service, fn)` acquires a token for the service and then
invokes `fn` — it performs no classification and no retry.  Each modelled
service function is rendered as the trace of platform events it emits, in
program order: `acquireToken` for a token acquisition, `apiCall` for an
outbound API request. -/

inductive ApiEvent where
  | acquireToken (service : String)
  | apiCall (endpoint : String)
deriving DecidableEq

def slackServiceStr : String := "slack"
def chatPostMessageStr : String := "chat.postMessage"
def reactionsAddStr : String := "reactions.add"

/-- Result of `executeWithRateLimit` (rate-limiter-manager.ts lines 141-152):
the wrapped function's own outcome, unchanged — no retry, no classification. -/
def executeWithRateLimitResult {E A : Type} (r : Except E A) : Except E A := r

/-- Event trace of `executeWithRateLimit service fn`: acquire a token for the
service, then the events of `fn`. -/
def executeWithRateLimitTrace (service : String) (fnTrace : List ApiEvent) :
    List ApiEvent :=
  ApiEvent.acquireToken service :: fnTrace

/-- `withSlackRateLimit fn` = `executeWithRateLimit('slack', fn)`. -/
def withSlackRateLimitTrace (fnTrace : List ApiEvent) : List ApiEvent :=
  executeWithRateLimitTrace slackServiceStr fnTrace

/-- Event trace of `postTextMessage` (slack.ts lines 303-327): one
`chat.postMessage` call wrapped in `withSlackRateLimit`. -/
def postTextMessageTrace : List ApiEvent :=
  withSlackRateLimitTrace [ApiEvent.apiCall chatPostMessageStr]

/-- Event trace of `addReactionsToMessage` (slack.ts lines 329-357): for each
reaction, a direct `slack.reactions.add(...)` call — not wrapped in
`withSlackRateLimit`, so no token is acquired. -/
def addReactionsToMessageTrace (reactions : List String) : List ApiEvent :=
  reactions.map (fun _ => ApiEvent.apiCall reactionsAddStr)

/-- `Bool`-valued check that every `apiCall` event in a trace is immediately
preceded by an `acquireToken` event; `prev` is the preceding event, if any. -/
def gatedFrom : Option ApiEvent → List ApiEvent → Bool
  | _, [] => true
  | prev, e :: rest =>
    (match e, prev with
     | ApiEvent.apiCall _, some (ApiEvent.acquireToken _) => true
     | ApiEvent.apiCall _, _ => false
     | _, _ => true) && gatedFrom (some e) rest

/-- Every outbound API call in the trace has a token acquired right before it. -/
def allCallsGated (t : List ApiEvent) : Bool := gatedFrom none t

/-! ## Attachment upload phases (`slack.ts`, `uploadAndPostMessageWithAttachments`,
lines 203-301)

The routine runs three steps over the attachment list:
Step 1 — one `files.getUploadURLExternal` per attachment, sequentially
(the Allocate phase); Step 2 — one `fetch(uploadUrl, POST)` per attachment,
sequentially (the Transfer phase); Step 3 — a single
`files.completeUploadExternal` for the whole batch (the Finalize phase). -/

inductive UploadEvent where
  | alloc (i : Nat)
  | transfer (i : Nat)
  | finalize
deriving DecidableEq

/-- The phase trace of `uploadAndPostMessageWithAttachments` for `n`
attachments, in program order: all Allocates (Step 1 loop), then all
Transfers (Step 2 loop), then the single batch Finalize (Step 3). -/
def uploadAndPostTrace (n : Nat) : List UploadEvent :=
  ((List.range n).map UploadEvent.alloc) ++
    ((List.range n).map UploadEvent.transfer) ++ [UploadEvent.finalize]

/-! ## Thread map (`slack.ts`, `processChannel`, lines 478-554)

`processChannel` keeps `threadMap : Map<threadId, slackTs>`.  For each message
it reads `threadTs = threadMap.get(message.threadId)` and posts the message
with that `thread_ts`; after the post, it stores the returned timestamp under
`message.threadId` only if the key is not yet present
(`if (messageTs && message.threadId && !threadMap.has(message.threadId))`).
The map is modelled as an association list; the result of the (network) post
for each message is an oracle value supplied with the message. -/

structure ImportMessage where
  threadId : Option String
  threadReply : Option Bool

/-- One iteration of the `processChannel` message loop: given the current
thread map, the message, and the `postSlackMessage` result for it, return the
updated map and the `thread_ts` the message was posted with. -/
def threadMapStep (threadMap : List (String × String)) (m : ImportMessage)
    (postResult : Option String) : List (String × String) × Option String :=
  let threadTs : Option String :=
    match m.threadId with
    | some tid => List.lookup tid threadMap
    | none => none
  let newMap : List (String × String) :=
    match postResult, m.threadId with
    | some ts, some tid =>
      if (List.lookup tid threadMap).isNone then (tid, ts) :: threadMap else threadMap
    | _, _ => threadMap
  (newMap, threadTs)

/-- Run the message loop over a list of messages paired with their post
results, returning the final thread map. -/
def threadMapRun (msgs : List (ImportMessage × Option String))
    (threadMap : List (String × String)) : List (String × String) :=
  msgs.foldl (fun acc mr => (threadMapStep acc mr.1 mr.2).1) threadMap

/-! ## Command concurrency (`google-chat.ts` export, `slack.ts` import)

`exportGoogleChatData` processes spaces with
`await Promise.all(spaceOverviews.map(async (overview) => ...))`
(lines 1011-1031; likewise `getSpaceOverviews`, lines 896-914): `map` runs
every async closure synchronously up to its first `await`, in list order,
before any of them can complete, so all `n` spaces are started — in flight —
before the first completion.  `importSlackData` processes channels with a
sequential `for ... await processChannel(...)` loop (lines 707-710): channel
`i` completes before channel `i+1` starts.  No code consumes
`maxConcurrentOperations` from the command profiles. -/

inductive RunEvent where
  | start (i : Nat)
  | done (i : Nat)
deriving DecidableEq

/-- Units in flight after processing a trace, starting from `cur` in flight. -/
def countAfter : Nat → List RunEvent → Nat
  | cur, [] => cur
  | cur, RunEvent.start _ :: rest => countAfter (cur + 1) rest
  | cur, RunEvent.done _ :: rest => countAfter (cur - 1) rest

/-- `inFlightBound bound cur t = true` iff, scanning `t` from `cur` units in
flight, the in-flight count never exceeds `bound`. -/
def inFlightBound (bound : Nat) : Nat → List RunEvent → Bool
  | _, [] => true
  | cur, RunEvent.start _ :: rest =>
    decide (cur + 1 ≤ bound) && inFlightBound bound (cur + 1) rest
  | cur, RunEvent.done _ :: rest => inFlightBound bound (cur - 1) rest

/-- Prefix of the export run's event trace: the `Promise.all` map starts all
`n` spaces, in order, before any space's work completes. -/
def exportStartPrefix (n : Nat) : List RunEvent :=
  (List.range n).map RunEvent.start

/-- Event trace of the import run's sequential channel loop: each channel
starts and completes before the next one starts. -/
def importChannelsTrace : Nat → List RunEvent
  | 0 => []
  | n + 1 => importChannelsTrace n ++ [RunEvent.start n, RunEvent.done n]

/-! ## Concrete sample data -/

/-- Wall-clock instants in non-decreasing order. -/
def timesSorted : List Nat → Bool
  | [] => true
  | [_] => true
  | a :: b :: rest => decide (a ≤ b) && timesSorted (b :: rest)

/-- The effective Slack bucket config of the import command:
`mergeConfigWithDefaults('slack', IMPORT_RATE_LIMITS.slack)` — capacity 3 and
refill rate 0.8/s from the override, the rest from the Slack defaults. -/
def importSlackCfg : RateLimitConfig :=
  ⟨3, mkRat 4 5, 5, 2000, 60000⟩

def sampleBucketOps : List BucketOp :=
  [BucketOp.tryAcquire 1000, BucketOp.tryAcquire 1000, BucketOp.observe 2000]

def threadKeySample : String := "spaces/AAA/threads/T1"
def tsSample : String := "1700000000.000100"
def tsSample2 : String := "1700000000.000200"

/-- A channel's message list: a thread root for `threadKeySample` whose post
returned `tsSample`. -/
def sampleThreadRun1 : List (ImportMessage × Option String) :=
  [(⟨some threadKeySample, some false⟩, some tsSample)]

/-- A later reply in the same thread. -/
def sampleReplyMsg : ImportMessage := ⟨some threadKeySample, some true⟩

def reactionNameSample : String := "thumbsup"

/-! ## Lemmas about the `RateLimiter.execute` retry loop -/

/-- Unfolding: a loop iteration whose work-function invocation succeeds. -/
theorem executeLoop_succ_ok {E A : Type} (o : RateLimiterOptions) (isRL : E → Bool)
    (fn : Nat → Except E A) (k r : Nat) (a : A) (hfk : fn k = Except.ok a) :
    executeLoop o isRL fn k (r + 1) = ⟨Except.ok a, 1, []⟩ := by
  simp [executeLoop, hfk]

/-- Unfolding: a loop iteration whose work-function invocation fails. -/
theorem executeLoop_succ_error {E A : Type} (o : RateLimiterOptions) (isRL : E → Bool)
    (fn : Nat → Except E A) (k r : Nat) (e : E) (hfk : fn k = Except.error e) :
    executeLoop o isRL fn k (r + 1) =
      if isRL e ∧ k < o.maxRetries then
        ⟨(executeLoop o isRL fn (k + 1) r).result,
          (executeLoop o isRL fn (k + 1) r).calls + 1,
          calculateBackoffDelay o k :: (executeLoop o isRL fn (k + 1) r).sleeps⟩
      else ⟨Except.error (some e), 1, []⟩ := by
  simp [executeLoop, hfk]

/-- If the work function fails with the same rate-limit-classified error on
every invocation, the loop starting at `retryCount = k` with matching fuel
invokes it once per remaining loop iteration, sleeps the backoff delays for
attempts `k, k+1, ...`, and finally rethrows the error. -/
theorem executeLoop_always_rl {E A : Type} (o : RateLimiterOptions) (isRL : E → Bool)
    (fn : Nat → Except E A) (e : E) (hfn : ∀ k, fn k = Except.error e)
    (hrl : isRL e = true) :
    ∀ rem k, k + rem = o.maxRetries + 1 → 1 ≤ rem →
      (executeLoop o isRL fn k rem).result = Except.error (some e) ∧
        (executeLoop o isRL fn k rem).calls = rem ∧
        (executeLoop o isRL fn k rem).sleeps
          = (List.range' k (rem - 1)).map (calculateBackoffDelay o) := by
  intro rem
  induction rem with
  | zero => intro k _ h1; exact absurd h1 (by omega)
  | succ r ih =>
    intro k hk _
    rw [executeLoop_succ_error o isRL fn k r e (hfn k)]
    rcases Nat.eq_zero_or_pos r with hr | hr
    · subst hr
      have hkmax : ¬(k < o.maxRetries) := by omega
      rw [if_neg (by exact fun hc => hkmax hc.2)]
      simp
    · have hklt : k < o.maxRetries := by omega
      have hrec := ih (k + 1) (by omega) hr
      rw [if_pos ⟨hrl, hklt⟩]
      refine ⟨hrec.1, by simp [hrec.2.1], ?_⟩
      simp only [hrec.2.2, Nat.succ_sub_one]
      have hr1 : r = (r - 1) + 1 := by omega
      rw [hr1, List.range'_succ k (r - 1) 1]
      simp

/-- The loop never falls through to the post-loop throw, and every result it
produces was produced by some invocation of the work function. -/
theorem executeLoop_result_provenance {E A : Type} (o : RateLimiterOptions)
    (isRL : E → Bool) (fn : Nat → Except E A) :
    ∀ rem k, k + rem = o.maxRetries + 1 → 1 ≤ rem →
      (executeLoop o isRL fn k rem).result ≠ Except.error none ∧
        (∀ e, (executeLoop o isRL fn k rem).result = Except.error (some e) →
          ∃ j, fn j = Except.error e) ∧
        (∀ a, (executeLoop o isRL fn k rem).result = Except.ok a →
          ∃ j, fn j = Except.ok a) := by
  intro rem
  induction rem with
  | zero => intro k _ h1; exact absurd h1 (by omega)
  | succ r ih =>
    intro k hk _
    cases hfk : fn k with
    | ok a =>
      rw [executeLoop_succ_ok o isRL fn k r a hfk]
      refine ⟨by simp, by simp, ?_⟩
      intro b hb
      simp only [Except.ok.injEq] at hb
      exact ⟨k, by rw [hfk, hb]⟩
    | error e =>
      rw [executeLoop_succ_error o isRL fn k r e hfk]
      by_cases hg : isRL e ∧ k < o.maxRetries
      · rw [if_pos hg]
        have hr1 : 1 ≤ r := by omega
        exact ih (k + 1) (by omega) hr1
      · rw [if_neg hg]
        refine ⟨by simp, ?_, by simp⟩
        intro e' he'
        simp only [Except.error.injEq, Option.some.injEq] at he'
        exact ⟨k, by rw [hfk, he']⟩

/-- If the first invocation of the work function fails with an error that the
classifier does not mark as a rate-limit error, `execute` rethrows it at once:
one invocation, no sleeps. -/
theorem execute_stops_on_non_rl {E A : Type} (o : RateLimiterOptions)
    (isRL : E → Bool) (fn : Nat → Except E A) (e : E)
    (h0 : fn 0 = Except.error e) (hrl : isRL e = false) :
    (execute o isRL fn).result = Except.error (some e) ∧
      (execute o isRL fn).calls = 1 ∧ (execute o isRL fn).sleeps = [] := by
  simp [execute, executeLoop, h0, hrl]

/-! ## Claim theorems: the backoff executor (C2, C3, C5, C10) -/

/-- C2 — Retry bound: for a rate limiter configured with `maxRetries = 3`, if
the work function throws a rate-limit-classified error on every invocation,
`execute` invokes it exactly 4 times (initial attempt plus 3 retries) and
then rethrows the terminal error; it never invokes it a 5th time. -/
theorem execute_retry_bound {E A : Type} (o : RateLimiterOptions)
    (h3 : o.maxRetries = 3) (isRL : E → Bool) (fn : Nat → Except E A) (e : E)
    (hfn : ∀ k, fn k = Except.error e) (hrl : isRL e = true) :
    (execute o isRL fn).calls = 4 ∧
      (execute o isRL fn).result = Except.error (some e) := by
  have h := executeLoop_always_rl o isRL fn e hfn hrl (o.maxRetries + 1) 0 (by omega)
    (by omega)
  refine ⟨?_, h.1⟩
  show (executeLoop o isRL fn 0 (o.maxRetries + 1)).calls = 4
  rw [h.2.1, h3]

/-- Witness for C2 at the `googlePeopleApiRateLimiter` configuration
(`maxRetries = 3`), with a gaxios HTTP 429 error on every invocation. -/
theorem execute_retry_bound_witness :
    (execute googlePeopleApiOptions isRateLimitError always429).calls = 4 ∧
      (execute googlePeopleApiOptions isRateLimitError always429).result
        = Except.error (some http429) :=
  execute_retry_bound googlePeopleApiOptions rfl isRateLimitError always429 http429
    (fun _ => rfl) (by decide)

/-- C10 — The post-loop `throw new Error('Max retries ... exceeded ...')` in
`RateLimiter.execute` is unreachable: for every configuration, classifier and
work function, `execute` either returns a value the work function returned or
rethrows an error the work function threw; the loop condition
`retryCount <= maxRetries` never becomes false. -/
theorem execute_final_throw_unreachable {E A : Type} (o : RateLimiterOptions)
    (isRL : E → Bool) (fn : Nat → Except E A) :
    (execute o isRL fn).result ≠ Except.error none ∧
      (∀ e, (execute o isRL fn).result = Except.error (some e) →
        ∃ j, fn j = Except.error e) ∧
      (∀ a, (execute o isRL fn).result = Except.ok a → ∃ j, fn j = Except.ok a) :=
  executeLoop_result_provenance o isRL fn (o.maxRetries + 1) 0 (by omega) (by omega)

/-- C3 counterexample — the executor's backoff delays are not capped by any
maximum delay: with `retryDelayMs = 1000`, base 2 and `maxRetries = 6`, the
slept delays of a run whose work function always fails rate-limited are
`[1000, 2000, 4000, 8000, 16000, 32000]`, and there is no value `maxDelay`
such that the delay of every attempt `n` equals `min (1000 * 2 ^ n) maxDelay`
(the class has no maximum-delay option at all). -/
theorem backoff_uncapped_counterexample :
    (execute ⟨2900, 1000, 6, 2⟩ constTrue alwaysRlFailUnit).sleeps
      = [1000, 2000, 4000, 8000, 16000, 32000] ∧
    ¬ ∃ maxDelay : Nat, ∀ n : Nat,
        calculateBackoffDelay ⟨2900, 1000, 6, 2⟩ n = min (1000 * 2 ^ n) maxDelay := by
  refine ⟨by decide, ?_⟩
  rintro ⟨M, hM⟩
  have h2 : M < 1000 * 2 ^ (M + 1) := by
    calc M < 2 ^ M := Nat.lt_two_pow M
    _ ≤ 2 ^ (M + 1) := Nat.pow_le_pow_right (by omega) (Nat.le_succ M)
    _ ≤ 1000 * 2 ^ (M + 1) := Nat.le_mul_of_pos_left _ (by omega)
  have h := hM (M + 1)
  rw [calculateBackoffDelay] at h
  simp only [] at h
  rw [min_eq_right (le_of_lt h2)] at h
  exact absurd h (Nat.ne_of_gt h2)

/-- C3 amended — the delay slept before retry `n` equals
`retryDelayMs * exponentialBackoffBase ^ n`, with no cap: for a run whose
work function always fails rate-limited, the slept delays are exactly that
geometric sequence over the retried attempts, and (for the default base 2 and
any positive base delay) they exceed every fixed bound for large enough `n`. -/
theorem backoff_delays_amended {E A : Type} (o : RateLimiterOptions)
    (isRL : E → Bool) (fn : Nat → Except E A) (e : E)
    (hfn : ∀ k, fn k = Except.error e) (hrl : isRL e = true) :
    (execute o isRL fn).sleeps
        = (List.range o.maxRetries).map (calculateBackoffDelay o) ∧
      (∀ n, calculateBackoffDelay o n
        = o.retryDelayMs * o.exponentialBackoffBase ^ n) ∧
      (2 ≤ o.exponentialBackoffBase → 1 ≤ o.retryDelayMs →
        ∀ M : Nat, ∃ n, M < calculateBackoffDelay o n) := by
  refine ⟨?_, fun n => rfl, ?_⟩
  · have h := executeLoop_always_rl o isRL fn e hfn hrl (o.maxRetries + 1) 0 (by omega)
      (by omega)
    show (executeLoop o isRL fn 0 (o.maxRetries + 1)).sleeps = _
    rw [h.2.2, Nat.succ_sub_one, List.range_eq_range']
  · intro hb hd M
    refine ⟨M, ?_⟩
    calc M < 2 ^ M := Nat.lt_two_pow M
    _ ≤ o.exponentialBackoffBase ^ M := Nat.pow_le_pow_left hb M
    _ ≤ o.retryDelayMs * o.exponentialBackoffBase ^ M :=
        Nat.le_mul_of_pos_left _ (by omega)

/-- Witness for the amended C3 at the `googleChatProjectRateLimiter`
configuration (`retryDelayMs = 1000`, base 2, `maxRetries = 5`). -/
theorem backoff_delays_amended_witness :
    (execute googleChatProjectOptions constTrue alwaysRlFailUnit).sleeps
      = [1000, 2000, 4000, 8000, 16000] :=
  ((backoff_delays_amended googleChatProjectOptions constTrue alwaysRlFailUnit ()
    (fun _ => rfl) rfl).1).trans (by decide)

/-- C5 counterexample — an HTTP 500 failure is not retried: the classifier
returns `false` for it, and `execute` (configured with retries remaining)
invokes the work function exactly once and propagates the error to the
caller instead of re-invoking the work function. -/
theorem transient_not_retried_counterexample :
    isRateLimitError http500 = false ∧
      (execute googleChatProjectOptions isRateLimitError always500).calls = 1 ∧
      (execute googleChatProjectOptions isRateLimitError always500).result
        = Except.error (some http500) ∧
      (execute googleChatProjectOptions isRateLimitError always500).sleeps = [] := by
  exact ⟨by decide, by decide, rfl, by decide⟩

/-- C5 amended — an HTTP 5xx failure is classified as not rate-limited and is
propagated immediately: `execute` performs no retry and no backoff sleep for
it, and `executeWithRateLimit` likewise passes the failure through unchanged
(it never retries anything). -/
theorem transient_errors_propagated {A : Type} (o : RateLimiterOptions)
    (fn : Nat → Except JsError A) (e : JsError) (s : Nat)
    (hr : e.hasResponse = false) (hs : e.hasStatus = true)
    (hv : e.statusVal = some s) (h5 : 500 ≤ s) (h0 : fn 0 = Except.error e) :
    isRateLimitError e = false ∧
      (execute o isRateLimitError fn).result = Except.error (some e) ∧
      (execute o isRateLimitError fn).calls = 1 ∧
      (execute o isRateLimitError fn).sleeps = [] ∧
      executeWithRateLimitResult (Except.error e : Except JsError A)
        = Except.error e := by
  have hcl : isRateLimitError e = false := by
    rw [isRateLimitError, if_neg (by simp [hr]), if_pos (by simp [hs]), hv]
    have : s ≠ 429 := by omega
    simp [this]
  have h := execute_stops_on_non_rl o isRateLimitError fn e h0 hcl
  exact ⟨hcl, h.1, h.2.1, h.2.2, rfl⟩

/-- Witness for the amended C5: a constant HTTP 500 failure under the
`googleChatProjectRateLimiter` configuration. -/
theorem transient_errors_propagated_witness :
    isRateLimitError http500 = false ∧
      (execute googleChatProjectOptions isRateLimitError always500).result
        = Except.error (some http500) ∧
      (execute googleChatProjectOptions isRateLimitError always500).calls = 1 ∧
      (execute googleChatProjectOptions isRateLimitError always500).sleeps = [] ∧
      executeWithRateLimitResult (Except.error http500 : Except JsError Unit)
        = Except.error http500 :=
  transient_errors_propagated googleChatProjectOptions always500 http500 500
    rfl rfl rfl (by omega) rfl

/-! ## Claim theorems: the error classifier (C4) -/

/-- C4 counterexample — an error carrying only a vendor rate-limit error-code
string (`code: 'rate_limited'`, or the Slack SDK's
`code: 'slack_webapi_rate_limited'`) is not classified as a rate-limit error
by `RateLimiter.isRateLimitError`: the classifier has no code-field branch,
so both return `false`, refuting the claim that every error carrying a vendor
rate-limited code string classifies as `RateLimited`. -/
theorem classifier_vendor_code_counterexample :
    isRateLimitError rateLimitedCodeError = false ∧
      isRateLimitError slackCodeError = false :=
  ⟨by decide, by decide⟩

/-- C4 amended — `RateLimiter.isRateLimitError` classifies as rate-limited
every error shaped as an HTTP 429 response (`response.status === 429`), every
error with `status: 429`, and every `Error` whose message contains the
`'Quota exceeded'` substring; an error with `status: 403` is not classified
rate-limited and `execute` propagates it without retry.  An error carrying
only a vendor `rate_limited` error-code string is not recognized by this
classifier. -/
theorem classifier_amended (e1 e2 : JsError) (msg : String) (o : RateLimiterOptions)
    (h1r : e1.hasResponse = true) (h1s : e1.responseStatus = some 429)
    (h2r : e2.hasResponse = false) (h2s : e2.hasStatus = true)
    (h2v : e2.statusVal = some 429)
    (hq : strIncludes msg quotaExceededStr = true) :
    isRateLimitError e1 = true ∧
      isRateLimitError e2 = true ∧
      isRateLimitError (googleQuotaError msg) = true ∧
      isRateLimitError http403 = false ∧
      (execute o isRateLimitError always403).calls = 1 ∧
      (execute o isRateLimitError always403).result
        = Except.error (some http403) ∧
      isRateLimitError rateLimitedCodeError = false := by
  have h403 : isRateLimitError http403 = false := by decide
  have hstop := execute_stops_on_non_rl o isRateLimitError always403 http403 rfl h403
  refine ⟨?_, ?_, ?_, h403, hstop.2.1, hstop.1, by decide⟩
  · simp [isRateLimitError, h1r, h1s]
  · simp [isRateLimitError, h2r, h2s, h2v]
  · have hne : msg ≠ "" := by
      intro h
      rw [h] at hq
      exact absurd hq (by decide)
    have hbeq : (msg == "") = false := beq_eq_false_iff_ne.mpr hne
    simp [isRateLimitError, googleQuotaError, hbeq, hq]

/-- Witness for the amended C4 at concrete error values. -/
theorem classifier_amended_witness :
    isRateLimitError http429 = true ∧
      isRateLimitError status429 = true ∧
      isRateLimitError (googleQuotaError sampleQuotaMsg) = true ∧
      isRateLimitError http403 = false ∧
      (execute googleChatProjectOptions isRateLimitError always403).calls = 1 ∧
      (execute googleChatProjectOptions isRateLimitError always403).result
        = Except.error (some http403) ∧
      isRateLimitError rateLimitedCodeError = false :=
  classifier_amended http429 status429 sampleQuotaMsg googleChatProjectOptions
    rfl rfl rfl rfl rfl (by decide)

/-! ## Lemmas about the token bucket -/

/-- With a nonnegative refill rate and a refill instant not earlier than the
last one, the computed `tokensToAdd` is nonnegative. -/
theorem tokensToAdd_nonneg (lastRefillTime : Nat) (refillRate : ℚ) (now : Nat)
    (ht : lastRefillTime ≤ now) (hrate : 0 ≤ refillRate) :
    0 ≤ ⌊((now : ℚ) - (lastRefillTime : ℚ)) / 1000 * refillRate⌋ := by
  refine Int.floor_nonneg.mpr (mul_nonneg (div_nonneg ?_ (by norm_num)) hrate)
  exact sub_nonneg.mpr (Nat.cast_le.mpr ht)

/-- Bounds of one refill: the result never exceeds capacity; it never drops
below the current count (given nonnegative elapsed time and rate, and a count
at most the capacity); and the refill instant becomes `now`. -/
theorem refillTokens_bounds (cfg : RateLimitConfig) (now : Nat) (s : TokenBucketState)
    (ht : s.lastRefillTime ≤ now) (hrate : 0 ≤ cfg.refillRate)
    (hu : s.tokens ≤ cfg.capacity) :
    s.tokens ≤ (refillTokens cfg now s).tokens ∧
      (refillTokens cfg now s).tokens ≤ cfg.capacity ∧
      (refillTokens cfg now s).lastRefillTime = now := by
  have hadd := tokensToAdd_nonneg s.lastRefillTime cfg.refillRate now ht hrate
  refine ⟨?_, ?_, rfl⟩
  · show s.tokens ≤ min cfg.capacity (s.tokens + _)
    exact le_min hu (by omega)
  · exact min_le_left _ _

/-- Invariant preservation of one bucket operation. -/
theorem bucketStep_inv (cfg : RateLimitConfig) (hrate : 0 ≤ cfg.refillRate)
    (s : TokenBucketState) (op : BucketOp) (ht : s.lastRefillTime ≤ op.time)
    (hl : 0 ≤ s.tokens) (hu : s.tokens ≤ cfg.capacity) :
    0 ≤ (bucketStep cfg s op).tokens ∧
      (bucketStep cfg s op).tokens ≤ cfg.capacity ∧
      (bucketStep cfg s op).lastRefillTime = op.time := by
  cases op with
  | observe now =>
    have h := refillTokens_bounds cfg now s ht hrate hu
    exact ⟨le_trans hl h.1, h.2.1, h.2.2⟩
  | tryAcquire now =>
    have h := refillTokens_bounds cfg now s ht hrate hu
    have h1 := h.1
    have h2 := h.2.1
    simp only [bucketStep]
    by_cases hone : 1 ≤ (refillTokens cfg now s).tokens
    · rw [if_pos hone]
      exact ⟨by dsimp only; omega, by dsimp only; omega, h.2.2⟩
    · rw [if_neg hone]
      exact ⟨le_trans hl h1, h2, h.2.2⟩

/-- Invariant of a whole run: starting within bounds and applying operations
at non-decreasing instants keeps the token count within `[0, capacity]` and
the final refill instant at most the final observation instant. -/
theorem bucketRun_inv (cfg : RateLimitConfig) (hrate : 0 ≤ cfg.refillRate)
    (tObs : Nat) :
    ∀ (ops : List BucketOp) (s : TokenBucketState),
      0 ≤ s.tokens → s.tokens ≤ cfg.capacity →
      timesSorted (s.lastRefillTime :: (ops.map BucketOp.time ++ [tObs])) = true →
      0 ≤ (bucketRun cfg ops s).tokens ∧
        (bucketRun cfg ops s).tokens ≤ cfg.capacity ∧
        (bucketRun cfg ops s).lastRefillTime ≤ tObs := by
  intro ops
  induction ops with
  | nil =>
    intro s hl hu hmono
    simp only [List.map_nil, List.nil_append, timesSorted] at hmono
    exact ⟨hl, hu, by simpa using hmono⟩
  | cons op rest ih =>
    intro s hl hu hmono
    simp only [List.map_cons, List.cons_append, timesSorted, Bool.and_eq_true,
      decide_eq_true_eq] at hmono
    have hstep := bucketStep_inv cfg hrate s op hmono.1 hl hu
    have hrun := ih (bucketStep cfg s op) hstep.1 hstep.2.1
      (by rw [hstep.2.2]; simpa [timesSorted] using hmono.2)
    exact hrun

/-! ## Claim theorem: token bucket bounds (C1) -/

/-- C1 — Token bucket bounds invariant: for every bucket constructed from a
config with capacity `C` (nonnegative, with nonnegative refill rate) and any
sequence of acquire-loop iterations and `getAvailableTokens` observations at
non-decreasing wall-clock instants, the observed token count satisfies
`0 <= tokens <= C`; moreover an observation (refill) never decreases the
count, and an acquire step decreases the refilled count by exactly one
exactly when a token is available. -/
theorem tokenBucket_bounds_invariant (cfg : RateLimitConfig)
    (hcap : 0 ≤ cfg.capacity) (hrate : 0 ≤ cfg.refillRate)
    (t0 : Nat) (ops : List BucketOp) (tObs : Nat)
    (hmono : timesSorted (t0 :: (ops.map BucketOp.time ++ [tObs])) = true) :
    (0 ≤ getAvailableTokens cfg tObs (bucketRun cfg ops (createTokenBucket cfg t0)) ∧
      getAvailableTokens cfg tObs (bucketRun cfg ops (createTokenBucket cfg t0))
        ≤ cfg.capacity) ∧
      (∀ (s : TokenBucketState) (now : Nat), s.lastRefillTime ≤ now →
        s.tokens ≤ cfg.capacity →
        s.tokens ≤ (bucketStep cfg s (BucketOp.observe now)).tokens) ∧
      (∀ (s : TokenBucketState) (now : Nat),
        (bucketStep cfg s (BucketOp.tryAcquire now)).tokens
          = (refillTokens cfg now s).tokens
            - (if 1 ≤ (refillTokens cfg now s).tokens then 1 else 0)) := by
  refine ⟨?_, ?_, ?_⟩
  · have hrun := bucketRun_inv cfg hrate tObs ops (createTokenBucket cfg t0)
      hcap (le_refl _) hmono
    have hobs := refillTokens_bounds cfg tObs (bucketRun cfg ops (createTokenBucket cfg t0))
      hrun.2.2 hrate hrun.2.1
    exact ⟨le_trans hrun.1 hobs.1, hobs.2.1⟩
  · intro s now ht hu
    exact (refillTokens_bounds cfg now s ht hrate hu).1
  · intro s now
    simp only [bucketStep]
    by_cases hone : 1 ≤ (refillTokens cfg now s).tokens
    · rw [if_pos hone, if_pos hone]
    · rw [if_neg hone, if_neg hone]
      omega

/-- Witness for C1 at the import command's Slack bucket configuration
(capacity 3, refill 0.8/s), with two acquire attempts at t=1000ms, an
observation at t=2000ms, and a final observation at t=3000ms. -/
theorem tokenBucket_bounds_invariant_witness :
    0 ≤ getAvailableTokens importSlackCfg 3000
        (bucketRun importSlackCfg sampleBucketOps (createTokenBucket importSlackCfg 0)) ∧
      getAvailableTokens importSlackCfg 3000
        (bucketRun importSlackCfg sampleBucketOps (createTokenBucket importSlackCfg 0))
          ≤ importSlackCfg.capacity :=
  (tokenBucket_bounds_invariant importSlackCfg (by decide) (by decide) 0
    sampleBucketOps 3000 (by decide)).1

/-! ## Claim theorems: attachment upload ordering (C6) -/

/-- C6 counterexample — for a message with 2 attachments, the Allocate phase
of attachment 2 (the event `alloc 1`, at position 1 of the trace) begins
before any Finalize has occurred: the whole trace is
`[alloc 0, alloc 1, transfer 0, transfer 1, finalize]`, so Finalize of
attachment 1 does not complete before Allocate of attachment 2 begins. -/
theorem upload_ordering_counterexample :
    uploadAndPostTrace 2 = [UploadEvent.alloc 0, UploadEvent.alloc 1,
        UploadEvent.transfer 0, UploadEvent.transfer 1, UploadEvent.finalize] ∧
      (uploadAndPostTrace 2)[1]? = some (UploadEvent.alloc 1) ∧
      ∀ k < 1, (uploadAndPostTrace 2)[k]? ≠ some UploadEvent.finalize :=
  ⟨by decide, by decide, by decide⟩

/-- C6 amended — phase-major ordering: for `n` attachments the routine runs
all Allocates in attachment order (Step 1), then all Transfers in attachment
order (Step 2), then one batch Finalize for the whole message (Step 3); each
attachment's Allocate precedes its Transfer, which precedes the single
Finalize — but the Finalize of the batch comes after the Allocate of every
attachment, not between attachments. -/
theorem upload_phase_order_amended (n i j : Nat) (hi : i < n) (hij : i < j)
    (hj : j < n) :
    (uploadAndPostTrace n)[i]? = some (UploadEvent.alloc i) ∧
      (uploadAndPostTrace n)[j]? = some (UploadEvent.alloc j) ∧
      (uploadAndPostTrace n)[n + i]? = some (UploadEvent.transfer i) ∧
      (uploadAndPostTrace n)[2 * n]? = some UploadEvent.finalize ∧
      i < n + i ∧ n + i < 2 * n ∧
      (uploadAndPostTrace n).length = 2 * n + 1 := by
  have hA : ((List.range n).map UploadEvent.alloc).length = n := by simp
  have hAT : (((List.range n).map UploadEvent.alloc)
      ++ ((List.range n).map UploadEvent.transfer)).length = n + n := by simp
  have halloc : ∀ m < n, (uploadAndPostTrace n)[m]? = some (UploadEvent.alloc m) := by
    intro m hm
    rw [uploadAndPostTrace, List.getElem?_append_left (by rw [hAT]; omega),
      List.getElem?_append_left (by rw [hA]; omega),
      List.getElem?_map, List.getElem?_range hm]
    rfl
  refine ⟨halloc i hi, halloc j hj, ?_, ?_, by omega, by omega, ?_⟩
  · rw [uploadAndPostTrace, List.getElem?_append_left (by rw [hAT]; omega),
      List.getElem?_append_right (by rw [hA]; omega), hA,
      Nat.add_sub_cancel_left, List.getElem?_map, List.getElem?_range hi]
    rfl
  · rw [uploadAndPostTrace, List.getElem?_append_right (by rw [hAT]; omega), hAT]
    have h0 : 2 * n - (n + n) = 0 := by omega
    rw [h0]
    rfl
  · simp [uploadAndPostTrace]
    omega

/-- Witness for the amended C6 at `n = 2`, attachments 0 and 1. -/
theorem upload_phase_order_amended_witness :
    (uploadAndPostTrace 2)[0]? = some (UploadEvent.alloc 0) ∧
      (uploadAndPostTrace 2)[1]? = some (UploadEvent.alloc 1) ∧
      (uploadAndPostTrace 2)[2 + 0]? = some (UploadEvent.transfer 0) ∧
      (uploadAndPostTrace 2)[2 * 2]? = some UploadEvent.finalize ∧
      0 < 2 + 0 ∧ 2 + 0 < 2 * 2 ∧
      (uploadAndPostTrace 2).length = 2 * 2 + 1 :=
  upload_phase_order_amended 2 0 1 (by omega) (by omega) (by omega)

/-! ## Claim theorems: thread map (C7) -/

/-- A step of the message loop never removes or overwrites an existing
binding: it inserts only a key that is not yet present. -/
theorem threadMapStep_preserves (m : List (String × String)) (msg : ImportMessage)
    (res : Option String) (k v : String)
    (h : List.lookup k m = some v) :
    List.lookup k (threadMapStep m msg res).1 = some v := by
  cases res with
  | none => simpa [threadMapStep] using h
  | some ts =>
    cases hmt : msg.threadId with
    | none => simpa [threadMapStep, hmt] using h
    | some tid =>
      by_cases hnone : (List.lookup tid m).isNone
      · have hne : k ≠ tid := by
          intro hkt
          rw [hkt] at h
          rw [h] at hnone
          simp at hnone
        simp [threadMapStep, hmt, hnone, List.lookup,
          beq_eq_false_iff_ne.mpr hne, h]
      · simpa [threadMapStep, hmt, hnone] using h

/-- Running the message loop over two segments composes. -/
theorem threadMapRun_append (a b : List (ImportMessage × Option String))
    (m : List (String × String)) :
    threadMapRun (a ++ b) m = threadMapRun b (threadMapRun a m) := by
  simp [threadMapRun, List.foldl_append]

/-- A binding present before a run of the message loop is still present, with
the same value, after it. -/
theorem threadMapRun_preserves (msgs : List (ImportMessage × Option String))
    (m : List (String × String)) (k v : String)
    (h : List.lookup k m = some v) :
    List.lookup k (threadMapRun msgs m) = some v := by
  induction msgs generalizing m with
  | nil => exact h
  | cons mr rest ih => exact ih _ (threadMapStep_preserves m mr.1 mr.2 k v h)

/-- C7 — Thread mapping is write-once, first writer wins: once a destination
timestamp `v` is stored under a thread key during one channel import, it is
never overwritten — any later message carrying that key is posted with
`thread_ts = v`, and the key still maps to `v` after the remainder of the
run, whatever the later messages and their post results are. -/
theorem threadMap_first_writer_wins (l1 l2 : List (ImportMessage × Option String))
    (msg : ImportMessage) (res : Option String) (k v : String)
    (hk : msg.threadId = some k)
    (hstored : List.lookup k (threadMapRun l1 []) = some v) :
    (threadMapStep (threadMapRun l1 []) msg res).2 = some v ∧
      List.lookup k (threadMapRun (l1 ++ (msg, res) :: l2) []) = some v := by
  constructor
  · simp [threadMapStep, hk, hstored]
  · rw [threadMapRun_append]
    exact threadMapRun_preserves l2 _ k v
      (threadMapStep_preserves (threadMapRun l1 []) msg res k v hstored)

/-- Witness for C7: after a root post stored `tsSample` under the thread key,
a later reply (whose own post returns a different timestamp) is posted with
`thread_ts = tsSample` and the stored binding is unchanged. -/
theorem threadMap_first_writer_wins_witness :
    (threadMapStep (threadMapRun sampleThreadRun1 []) sampleReplyMsg
        (some tsSample2)).2 = some tsSample ∧
      List.lookup threadKeySample
        (threadMapRun (sampleThreadRun1 ++ (sampleReplyMsg, some tsSample2) :: [])
          []) = some tsSample :=
  threadMap_first_writer_wins sampleThreadRun1 [] sampleReplyMsg (some tsSample2)
    threadKeySample tsSample rfl (by decide)

/-! ## Claim theorems: concurrency bound (C8) -/

/-- Processing a concatenated trace. -/
theorem countAfter_append (l1 l2 : List RunEvent) (cur : Nat) :
    countAfter cur (l1 ++ l2) = countAfter (countAfter cur l1) l2 := by
  induction l1 generalizing cur with
  | nil => rfl
  | cons e rest ih => cases e <;> simp [countAfter, ih]

/-- Boundedness over a concatenated trace. -/
theorem inFlightBound_append (b : Nat) (l1 l2 : List RunEvent) (cur : Nat) :
    inFlightBound b cur (l1 ++ l2)
      = (inFlightBound b cur l1 && inFlightBound b (countAfter cur l1) l2) := by
  induction l1 generalizing cur with
  | nil => simp [inFlightBound, countAfter]
  | cons e rest ih => cases e <;> simp [inFlightBound, countAfter, ih, Bool.and_assoc]

/-- The sequential import loop returns to its starting in-flight count. -/
theorem importChannelsTrace_countAfter (n cur : Nat) :
    countAfter cur (importChannelsTrace n) = cur := by
  induction n with
  | zero => rfl
  | succ m ih =>
    rw [importChannelsTrace, countAfter_append, ih]
    simp [countAfter]

/-- Starting all spaces increments the in-flight count once per space. -/
theorem countAfter_startPrefix (l : List Nat) (cur : Nat) :
    countAfter cur (l.map RunEvent.start) = cur + l.length := by
  induction l generalizing cur with
  | nil => simp [countAfter]
  | cons a rest ih => simp [countAfter, ih]; omega

/-- C8 counterexample — in an export run over 6 spaces, all 6 spaces are in
flight at once before any completes (`Promise.all` starts every mapped async
closure before any can settle), exceeding the export profile's
`maxConcurrentOperations = 5`; no slot acquisition blocks anything. -/
theorem export_concurrency_counterexample :
    countAfter 0 (exportStartPrefix 6) = 6 ∧
      inFlightBound 5 0 (exportStartPrefix 6) = false :=
  ⟨by decide, by decide⟩

/-- C8 amended — the import command does bound its in-flight channels by 1:
its sequential loop finishes each channel before starting the next.  The
export command does not bound its in-flight spaces by 5 (or anything): the
`Promise.all` start prefix puts all `n` selected spaces in flight, and
`maxConcurrentOperations` is consumed by no code. -/
theorem concurrency_amended (n : Nat) :
    inFlightBound 1 0 (importChannelsTrace n) = true ∧
      countAfter 0 (exportStartPrefix n) = n := by
  constructor
  · induction n with
    | zero => rfl
    | succ m ih =>
      rw [importChannelsTrace, inFlightBound_append, ih,
        importChannelsTrace_countAfter]
      simp [inFlightBound]
  · rw [exportStartPrefix, countAfter_startPrefix]
    simp

/-! ## Claim theorem: reaction calls bypass the rate limiter (C9) -/

/-- C9 — evaluating the code at the failing input (a message with one
reaction): `postTextMessage` acquires a Slack token before its
`chat.postMessage` call, but `addReactionsToMessage` issues its
`reactions.add` call directly, with no token acquisition before it, so the
trace of posting a message and then adding its reaction contains an outbound
platform call that is not gated by the rate-limited coordinator. -/
theorem reactions_not_gated :
    allCallsGated postTextMessageTrace = true ∧
      addReactionsToMessageTrace [reactionNameSample]
        = [ApiEvent.apiCall reactionsAddStr] ∧
      allCallsGated (addReactionsToMessageTrace [reactionNameSample]) = false ∧
      allCallsGated (postTextMessageTrace
        ++ addReactionsToMessageTrace [reactionNameSample]) = false :=
  ⟨by decide, by decide, by decide, by decide⟩

end ChatMig
